import Mathlib

/-!
Verification development for the file-explorer application
(src/example-apps/file-explorer/explorer/src/lib.rs).

The external VFS store (hyperware_process_lib::vfs) is modelled as an
explicit state value with fault-injection lists standing for the per-call
timeouts the spec assigns to every backend call.  The handlers of
`FileExplorerState` are translated as explicit state transformers.
-/

set_option maxHeartbeats 1000000
set_option maxRecDepth 100000

/-! ## MD5 (the `md5` crate's `compute`, as called by `share_file`) -/

/-- The word modulus 2^32 for MD5 arithmetic. -/
def M32 : Nat := 4294967296

/-- The 64 MD5 round constants, floor(2^32 * |sin(i+1)|). -/
def md5K : List Nat := [
  0xd76aa478, 0xe8c7b756, 0x242070db, 0xc1bdceee,
  0xf57c0faf, 0x4787c62a, 0xa8304613, 0xfd469501,
  0x698098d8, 0x8b44f7af, 0xffff5bb1, 0x895cd7be,
  0x6b901122, 0xfd987193, 0xa679438e, 0x49b40821,
  0xf61e2562, 0xc040b340, 0x265e5a51, 0xe9b6c7aa,
  0xd62f105d, 0x02441453, 0xd8a1e681, 0xe7d3fbc8,
  0x21e1cde6, 0xc33707d6, 0xf4d50d87, 0x455a14ed,
  0xa9e3e905, 0xfcefa3f8, 0x676f02d9, 0x8d2a4c8a,
  0xfffa3942, 0x8771f681, 0x6d9d6122, 0xfde5380c,
  0xa4beea44, 0x4bdecfa9, 0xf6bb4b60, 0xbebfbc70,
  0x289b7ec6, 0xeaa127fa, 0xd4ef3085, 0x04881d05,
  0xd9d4d039, 0xe6db99e5, 0x1fa27cf8, 0xc4ac5665,
  0xf4292244, 0x432aff97, 0xab9423a7, 0xfc93a039,
  0x655b59c3, 0x8f0ccc92, 0xffeff47d, 0x85845dd1,
  0x6fa87e4f, 0xfe2ce6e0, 0xa3014314, 0x4e0811a1,
  0xf7537e82, 0xbd3af235, 0x2ad7d2bb, 0xeb86d391]

/-- The 64 MD5 per-round left-rotation amounts. -/
def md5S : List Nat := [
  7, 12, 17, 22, 7, 12, 17, 22, 7, 12, 17, 22, 7, 12, 17, 22,
  5, 9, 14, 20, 5, 9, 14, 20, 5, 9, 14, 20, 5, 9, 14, 20,
  4, 11, 16, 23, 4, 11, 16, 23, 4, 11, 16, 23, 4, 11, 16, 23,
  6, 10, 15, 21, 6, 10, 15, 21, 6, 10, 15, 21, 6, 10, 15, 21]

/-- Left rotation of a 32-bit word (input assumed < 2^32). -/
def rotl32 (x c : Nat) : Nat := x % 2 ^ (32 - c) * 2 ^ c + x / 2 ^ (32 - c)

/-- The MD5 nonlinear function for round `i`. -/
def md5F (i b c d : Nat) : Nat :=
  if i < 16 then Nat.lor (Nat.land b c) (Nat.land (Nat.xor b 0xffffffff) d)
  else if i < 32 then Nat.lor (Nat.land d b) (Nat.land (Nat.xor d 0xffffffff) c)
  else if i < 48 then Nat.xor (Nat.xor b c) d
  else Nat.xor c (Nat.lor b (Nat.xor d 0xffffffff))

/-- The MD5 message-word index for round `i`. -/
def md5G (i : Nat) : Nat :=
  if i < 16 then i
  else if i < 32 then (5 * i + 1) % 16
  else if i < 48 then (3 * i + 5) % 16
  else 7 * i % 16

/-- Little-endian byte decomposition of `x` into `len` bytes. -/
def leBytes (len x : Nat) : List Nat :=
  (List.range len).map (fun i => x / 256 ^ i % 256)

/-- MD5 padding: append 0x80, zero-fill to 56 mod 64, append the 64-bit
little-endian bit length. -/
def md5Pad (msg : List Nat) : List Nat :=
  msg ++ [0x80] ++ List.replicate ((119 - msg.length % 64) % 64) 0 ++
    leBytes 8 (8 * msg.length % 2 ^ 64)

/-- Split a byte list into chunks of 64 bytes; `acc` holds the current
chunk in reverse. -/
def chunksAcc : List Nat → List Nat → List (List Nat)
  | [], acc => if acc.isEmpty then [] else [acc.reverse]
  | x :: xs, acc =>
    if acc.length = 63 then (x :: acc).reverse :: chunksAcc xs []
    else chunksAcc xs (x :: acc)

/-- Split a byte list into chunks of 64 bytes. -/
def chunks64 (l : List Nat) : List (List Nat) := chunksAcc l []

/-- The sixteen 32-bit little-endian words of one 64-byte block. -/
def blockWords (b : List Nat) : List Nat :=
  (List.range 16).map (fun i =>
    b.getD (4 * i) 0 + 256 * b.getD (4 * i + 1) 0 +
    65536 * b.getD (4 * i + 2) 0 + 16777216 * b.getD (4 * i + 3) 0)

/-- One MD5 round: state `(a, b, c, d)` updated with round index `i`. -/
def md5Round (w : List Nat) (st : Nat × Nat × Nat × Nat) (i : Nat) :
    Nat × Nat × Nat × Nat :=
  let (a, b, c, d) := st
  let f := (md5F i b c d + a + md5K.getD i 0 + w.getD (md5G i) 0) % M32
  (d, (b + rotl32 f (md5S.getD i 0)) % M32, b, c)

/-- Process one 64-byte block, folding the 64 rounds and adding the result
to the incoming state. -/
def md5Block (st : Nat × Nat × Nat × Nat) (block : List Nat) :
    Nat × Nat × Nat × Nat :=
  let w := blockWords block
  let r := (List.range 64).foldl (md5Round w) st
  ((st.1 + r.1) % M32, (st.2.1 + r.2.1) % M32,
   (st.2.2.1 + r.2.2.1) % M32, (st.2.2.2 + r.2.2.2) % M32)

/-- The 16-byte MD5 digest of a byte message. -/
def md5Bytes (msg : List Nat) : List Nat :=
  let d := (chunks64 (md5Pad msg)).foldl md5Block
    (0x67452301, 0xefcdab89, 0x98badcfe, 0x10325476)
  leBytes 4 d.1 ++ leBytes 4 d.2.1 ++ leBytes 4 d.2.2.1 ++ leBytes 4 d.2.2.2

/-- Lower-case hex digit for a value below 16. -/
def hexChar (n : Nat) : Char :=
  if n < 10 then Char.ofNat (48 + n) else Char.ofNat (87 + n)

/-- Two-digit lower-case hex rendering of one byte. -/
def hexByte (b : Nat) : String := String.mk [hexChar (b / 16), hexChar (b % 16)]

/-- Lower-case hex rendering of a byte list, as Rust's `{:x}` formatting
of an `md5::Digest`. -/
def hexOfBytes (bs : List Nat) : String := String.join (bs.map hexByte)

/-- The UTF-8 encoding of one character, as bytes below 256. -/
def utf8Char (c : Char) : List Nat :=
  let n := c.toNat
  if n < 0x80 then [n]
  else if n < 0x800 then [0xc0 + n / 64, 0x80 + n % 64]
  else if n < 0x10000 then [0xe0 + n / 4096, 0x80 + n / 64 % 64, 0x80 + n % 64]
  else [0xf0 + n / 262144, 0x80 + n / 4096 % 64, 0x80 + n / 64 % 64, 0x80 + n % 64]

/-- The UTF-8 bytes of a string, as values below 256. -/
def utf8Bytes (s : String) : List Nat := (s.data.map utf8Char).flatten

/-- Rust's `format!("{:x}", md5::compute(&path))`: lower-case hex MD5 of the
UTF-8 bytes of a string. -/
def md5Hex (s : String) : String := hexOfBytes (md5Bytes (utf8Bytes s))

/-! ## The external VFS store

Modelled from the spec: the Store Adapter is an external collaborator
exposing create/open/read/write/remove plus a directory-read primitive
returning immediate children with type, and a metadata call carrying exact
byte size and timestamps; every call may time out.  Timeouts are injected
through the `bad*` lists: a path listed there makes the corresponding call
fail.  The store itself is outside this repository, so only its interface
behaviour is modelled; the call sites below are translated from
src/example-apps/file-explorer/explorer/src/lib.rs. -/

inductive FileType where
  | Directory : FileType
  | File : FileType
deriving DecidableEq, Repr

/-- One entry returned by a VFS directory read: absolute path and type. -/
structure DirEntry where
  path : String
  file_type : FileType
deriving DecidableEq, Repr

/-- Modelled from the spec: the store metadata record for a path, with the
exact byte length and the created/modified timestamps the spec says the
store can report (the vfs collaborator is outside this repository). -/
structure FileMeta where
  len : Nat
  created : Nat
  modified : Nat
deriving DecidableEq, Repr

/-- The store state: file contents, directory listings, metadata, and the
fault-injection lists that make individual calls time out. -/
structure Vfs where
  files : List (String × List Nat)
  dirListings : List (String × List DirEntry)
  fileMeta : List (String × FileMeta)
  badDirs : List String
  badMeta : List String
  badCreate : List String
  badDelete : List String
deriving DecidableEq, Repr

/-- First-match association-list lookup (the observable behaviour of a
`HashMap` lookup, and of the store's keyed tables). -/
def lookupA {α : Type} (l : List (String × α)) (k : String) : Option α :=
  (l.find? (fun q => q.1 == k)).map (fun q => q.2)

/-- Directory read (`vfs::Directory::read`). -/
def vfsReadDir (v : Vfs) (p : String) : Except String (List DirEntry) :=
  if v.badDirs.contains p then .error "vfs timeout"
  else
    match lookupA v.dirListings p with
    | some es => .ok es
    | none => .error "no such directory"

/-- Metadata fetch (`vfs::metadata`). -/
def vfsMetadata (v : Vfs) (p : String) : Except String FileMeta :=
  if v.badMeta.contains p then .error "vfs timeout"
  else
    match lookupA v.fileMeta p with
    | some m => .ok m
    | none => .error "no such entry"

/-- Open-without-create followed by a full read (`vfs::open_file` +
`read`): fails if the file is absent. -/
def vfsOpenRead (v : Vfs) (p : String) : Except String (List Nat) :=
  match lookupA v.files p with
  | some c => .ok c
  | none => .error "no such file"

/-- Create (or truncate) followed by a full write (`vfs::create_file` +
`write`): on success the path holds exactly the written bytes. -/
def vfsCreateWrite (v : Vfs) (p : String) (c : List Nat) : Except String Vfs :=
  if v.badCreate.contains p then .error "vfs timeout"
  else .ok { v with files := (p, c) :: v.files.filter (fun q => q.1 != p) }

/-- Remove a single file (`vfs::remove_file`): fails if absent. -/
def vfsRemoveFile (v : Vfs) (p : String) : Except String Vfs :=
  if v.badDelete.contains p then .error "vfs timeout"
  else
    match lookupA v.files p with
    | some _ => .ok { v with files := v.files.filter (fun q => q.1 != p) }
    | none => .error "no such file"

/-- Open-or-create a directory node (`vfs::open_dir` with create=true):
idempotent if already present. -/
def vfsOpenDirCreate (v : Vfs) (p : String) : Vfs :=
  if (lookupA v.dirListings p).isSome then v
  else { v with dirListings := (p, []) :: v.dirListings }

/-- The `VfsAction::RemoveDirAll` request: one backend call removing the directory and
all descendants. -/
def vfsRemoveDirAll (v : Vfs) (p : String) : Vfs :=
  { v with
    dirListings := v.dirListings.filter
      (fun q => !(q.1 == p || (p ++ "/").isPrefixOf q.1)),
    files := v.files.filter (fun q => !((p ++ "/").isPrefixOf q.1)),
    fileMeta := v.fileMeta.filter
      (fun q => !(q.1 == p || (p ++ "/").isPrefixOf q.1)) }

/-! ## Data model of the application (lib.rs) -/

/-- Structure `FileInfo` from lib.rs (the spec's FileEntry). -/
structure FileInfo where
  name : String
  path : String
  size : Nat
  created : Nat
  modified : Nat
  is_directory : Bool
  permissions : String
deriving DecidableEq, Repr

/-- Enum `AuthScheme` from lib.rs (the spec's AccessPolicy). -/
inductive AuthScheme where
  | Public : AuthScheme
  | Private : AuthScheme
deriving DecidableEq, Repr

/-- Structure `FileExplorerState` from lib.rs: the share registry and the current
working directory. -/
structure FileExplorerState where
  shared_files : List (String × AuthScheme)
  cwd : String
deriving DecidableEq, Repr

/-- Constant `PROCESS_ID_LINK` from lib.rs. -/
def PROCESS_ID_LINK : String := "explorer:file-explorer:sys"

/-- Split a character list at every occurrence of `sep`, keeping empty
pieces, as Rust's `str::split` on a single character. -/
def splitOnChar (sep : Char) : List Char → List (List Char)
  | [] => [[]]
  | c :: rest =>
    let r := splitOnChar sep rest
    if c = sep then [] :: r
    else
      match r with
      | g :: gs => (c :: g) :: gs
      | [] => [[c]]

/-- Rust's `s.split(sep)` collected as a list of strings. -/
def splitChar (sep : Char) (s : String) : List String :=
  (splitOnChar sep s.data).map String.mk

/-- Rust's `path.split('/').last().unwrap_or("")`. -/
def lastSegment (p : String) : String := (splitChar '/' p).getLastD ""

/-- The directory-shaped `FileInfo` built throughout lib.rs: name from the
last path segment, zero timestamps, "rw" permissions. -/
def mkDirInfo (p : String) (n : Nat) : FileInfo :=
  { name := lastSegment p, path := p, size := n, created := 0, modified := 0,
    is_directory := true, permissions := "rw" }

/-- The file-shaped `FileInfo` built throughout lib.rs. -/
def mkFileInfo (p : String) (n : Nat) : FileInfo :=
  { name := lastSegment p, path := p, size := n, created := 0, modified := 0,
    is_directory := false, permissions := "rw" }

/-! ## The two-level listing algorithm (`list_directory_contents`) -/

/-- Level-2 handling of one sub-entry: a grandchild directory is emitted
with size 0; a grandchild file is emitted with its metadata length, or
silently skipped when the metadata call fails. -/
def subEntryInfo (v : Vfs) (se : DirEntry) : Option FileInfo :=
  if se.file_type = FileType.Directory then some (mkDirInfo se.path 0)
  else
    match vfsMetadata v se.path with
    | .ok m => some (mkFileInfo se.path m.len)
    | .error _ => none

/-- The level-2 expansion of a level-1 directory: read its children and
convert each; a failed read contributes nothing. -/
def expandDir (v : Vfs) (p : String) : List FileInfo :=
  match vfsReadDir v p with
  | .ok ses => ses.filterMap (subEntryInfo v)
  | .error _ => []

/-- The child count shown as a level-1 directory's size: the length of its
listing, or 0 when the read fails. -/
def dirCount (v : Vfs) (p : String) : Nat :=
  match vfsReadDir v p with
  | .ok cs => cs.length
  | .error _ => 0

/-- The level-1 loop body of `list_directory_contents`: directories emit a
child-count entry followed by their level-2 expansion; files emit an exact
size entry, and a failing metadata fetch aborts the whole call. -/
def processEntries (v : Vfs) : List DirEntry → Except String (List FileInfo)
  | [] => .ok []
  | e :: rest =>
    if e.file_type = FileType.Directory then
      match processEntries v rest with
      | .ok tail =>
          .ok (mkDirInfo e.path (dirCount v e.path) :: (expandDir v e.path ++ tail))
      | .error msg => .error msg
    else
      match vfsMetadata v e.path with
      | .ok m =>
          match processEntries v rest with
          | .ok tail => .ok (mkFileInfo e.path m.len :: tail)
          | .error msg => .error msg
      | .error msg =>
          .error ("Failed to get metadata for '" ++ e.path ++ "': " ++ msg)

/-- Function `list_directory_contents` from lib.rs: read the root (fatal on
failure) and process the entries. -/
def list_directory_contents (v : Vfs) (path : String) :
    Except String (List FileInfo) :=
  match vfsReadDir v path with
  | .ok entries => processEntries v entries
  | .error msg => .error ("Failed to read directory '" ++ path ++ "': " ++ msg)

/-! ## HTTP handlers of `FileExplorerState`

Each `#[http]` method takes `&mut self` plus the store; it is translated
as a transformer returning the new application state, the new store state
and the result. -/

/-- Handler `list_directory`: normalise the root path and delegate to
`list_directory_contents`. -/
def list_directory (s : FileExplorerState) (v : Vfs) (path : String) :
    FileExplorerState × Vfs × Except String (List FileInfo) :=
  let vfs_path := if path == "/" || path.isEmpty then "/" else path
  (s, v, list_directory_contents v vfs_path)

/-- Handler `create_file`: create and write the content, then answer with a
`FileInfo` whose size is the metadata length of the freshly written file
(its content length) and whose timestamps are 0. -/
def create_file (s : FileExplorerState) (v : Vfs) (path : String)
    (content : List Nat) : FileExplorerState × Vfs × Except String FileInfo :=
  match vfsCreateWrite v path content with
  | .ok v1 => (s, v1, .ok (mkFileInfo path content.length))
  | .error e => (s, v, .error ("Failed to create file: " ++ e))

/-- Handler `read_file`: open without creating and read all bytes. -/
def read_file (s : FileExplorerState) (v : Vfs) (path : String) :
    FileExplorerState × Vfs × Except String (List Nat) :=
  match vfsOpenRead v path with
  | .ok c => (s, v, .ok c)
  | .error e => (s, v, .error ("Failed to open file: " ++ e))

/-- Handler `update_file`: open an existing file (fails if absent), overwrite its
content, and answer with the refreshed `FileInfo`. -/
def update_file (s : FileExplorerState) (v : Vfs) (path : String)
    (content : List Nat) : FileExplorerState × Vfs × Except String FileInfo :=
  match vfsOpenRead v path with
  | .ok _ =>
      (s, { v with files := (path, content) :: v.files.filter (fun q => q.1 != path) },
       .ok (mkFileInfo path content.length))
  | .error e => (s, v, .error ("Failed to open file: " ++ e))

/-- Handler `delete_file`: remove a single file. -/
def delete_file (s : FileExplorerState) (v : Vfs) (path : String) :
    FileExplorerState × Vfs × Except String Bool :=
  match vfsRemoveFile v path with
  | .ok v1 => (s, v1, .ok true)
  | .error e => (s, v, .error ("Failed to delete file: " ++ e))

/-- Handler `create_directory`: open-or-create the directory node. -/
def create_directory (s : FileExplorerState) (v : Vfs) (path : String) :
    FileExplorerState × Vfs × Except String FileInfo :=
  (s, vfsOpenDirCreate v path, .ok (mkDirInfo path 0))

/-- Handler `delete_directory`: one `RemoveDirAll` backend call. -/
def delete_directory (s : FileExplorerState) (v : Vfs) (path : String) :
    FileExplorerState × Vfs × Except String Bool :=
  (s, vfsRemoveDirAll v path, .ok true)

/-- Handler `upload_file`: `create_file` at `path ++ "/" ++ filename`. -/
def upload_file (s : FileExplorerState) (v : Vfs) (path filename : String)
    (content : List Nat) : FileExplorerState × Vfs × Except String FileInfo :=
  create_file s v (path ++ "/" ++ filename) content

/-- The share link returned by `share_file`:
`format!("/{PROCESS_ID_LINK}/shared/{share_id}")`. -/
def shareLink (path : String) : String :=
  "/" ++ PROCESS_ID_LINK ++ "/shared/" ++ md5Hex path

/-- Handler `share_file`: compute the id as the hex MD5 of the path, upsert
`path -> auth` into the registry, and return the link. -/
def share_file (s : FileExplorerState) (v : Vfs) (path : String)
    (auth : AuthScheme) : FileExplorerState × Vfs × Except String String :=
  ({ s with shared_files :=
      (path, auth) :: s.shared_files.filter (fun q => q.1 != path) },
   v, .ok (shareLink path))

/-- Handler `unshare_file`: remove the entry; answer whether one was present. -/
def unshare_file (s : FileExplorerState) (v : Vfs) (path : String) :
    FileExplorerState × Vfs × Except String Bool :=
  ({ s with shared_files := s.shared_files.filter (fun q => q.1 != path) },
   v, .ok (lookupA s.shared_files path).isSome)

/-- Handler `get_share_link`: the id-embedding link iff the path has an entry. -/
def get_share_link (s : FileExplorerState) (v : Vfs) (path : String) :
    FileExplorerState × Vfs × Except String (Option String) :=
  (s, v,
   .ok (if (lookupA s.shared_files path).isSome then some (shareLink path) else none))

/-- The content-type table of `serve_shared_file`, keyed by the last
`.`-separated piece of the filename. -/
def contentTypeFor (filename : String) : String :=
  match (splitChar '.' filename).getLastD "" with
  | "txt" => "text/plain"
  | "html" => "text/html"
  | "htm" => "text/html"
  | "css" => "text/css"
  | "js" => "application/javascript"
  | "json" => "application/json"
  | "png" => "image/png"
  | "jpg" => "image/jpeg"
  | "jpeg" => "image/jpeg"
  | "gif" => "image/gif"
  | "pdf" => "application/pdf"
  | "zip" => "application/zip"
  | _ => "application/octet-stream"

/-- The resolution scan of `serve_shared_file`: recompute each stored
path's hex MD5 and compare with the extracted id; first match wins. -/
def resolveShare (reg : List (String × AuthScheme)) (share_id : String) :
    Option (String × AuthScheme) :=
  reg.find? (fun q => md5Hex q.1 == share_id)

/-- The `for (path, auth_scheme) in &self.shared_files` loop of
`serve_shared_file`: on the first id match, a Public entry sets the two
response headers and reads the file, a Private entry is denied; no match
is not-found.  Headers are returned alongside the body result. -/
def serveLoop (s : FileExplorerState) (v : Vfs) (share_id : String) :
    List (String × AuthScheme) → Except String (List Nat) × List (String × String)
  | [] => (.error "File not found or not shared", [])
  | (path, auth) :: rest =>
    if md5Hex path == share_id then
      match auth with
      | AuthScheme.Public =>
          let filename := (splitChar '/' path).getLastD "download"
          ((read_file s v path).2.2,
           [("Content-Disposition", "attachment; filename=\"" ++ filename ++ "\""),
            ("Content-Type", contentTypeFor filename)])
      | AuthScheme.Private => (.error "Access denied: Private file", [])
    else serveLoop s v share_id rest

/-- Drop a leading character sequence, as Rust's `str::strip_prefix`:
`some` of the remainder when the pattern leads, else `none`. -/
def dropLeading : List Char → List Char → Option (List Char)
  | [], cs => some cs
  | _ :: _, [] => none
  | p :: ps, c :: cs => if p = c then dropLeading ps cs else none

/-- Rust's `request_path_str.strip_prefix("/shared/")`. -/
def stripShared (rp : String) : Option String :=
  (dropLeading "/shared/".data rp.data).map String.mk

/-- Handler `serve_shared_file`: parse the request path, require the `/shared/`
form, extract the id, and run the resolution loop. -/
def serve_shared_file (s : FileExplorerState) (v : Vfs)
    (request_path : Option String) :
    FileExplorerState × Vfs × Except String (List Nat) × List (String × String) :=
  match request_path with
  | some rp =>
      match stripShared rp with
      | some share_id => (s, v, serveLoop s v share_id s.shared_files)
      | none => (s, v, .error "Invalid shared file path", [])
  | none => (s, v, .error "No request path provided", [])

/-- Handler `get_current_directory`. -/
def get_current_directory (s : FileExplorerState) (v : Vfs) :
    FileExplorerState × Vfs × Except String String :=
  (s, v, .ok s.cwd)

/-- Handler `set_current_directory`. -/
def set_current_directory (s : FileExplorerState) (v : Vfs) (path : String) :
    FileExplorerState × Vfs × Except String String :=
  ({ s with cwd := path }, v, .ok path)

/-- Handler `init`: set `cwd` from the (external) `create_drive` outcome, falling
back to "/" on failure. -/
def init (s : FileExplorerState) (v : Vfs) (home : Except String String) :
    FileExplorerState × Vfs :=
  match home with
  | .ok h => ({ s with cwd := h }, v)
  | .error _ => ({ s with cwd := "/" }, v)

/-- Handler `move_file`: `read_file(src)?` then `create_file(dst, content)?` then
`delete_file(src)?`, answering the `FileInfo` of the created copy. -/
def move_file (s : FileExplorerState) (v : Vfs) (source destination : String) :
    FileExplorerState × Vfs × Except String FileInfo :=
  match read_file s v source with
  | (s1, v1, .error e) => (s1, v1, .error e)
  | (s1, v1, .ok content) =>
    match create_file s1 v1 destination content with
    | (s2, v2, .error e) => (s2, v2, .error e)
    | (s2, v2, .ok fi) =>
      match delete_file s2 v2 source with
      | (s3, v3, .error e) => (s3, v3, .error e)
      | (s3, v3, .ok _) => (s3, v3, .ok fi)

/-- Handler `copy_file`: `read_file(src)?` then `create_file(dst, content)`. -/
def copy_file (s : FileExplorerState) (v : Vfs) (source destination : String) :
    FileExplorerState × Vfs × Except String FileInfo :=
  match read_file s v source with
  | (s1, v1, .error e) => (s1, v1, .error e)
  | (s1, v1, .ok content) => create_file s1 v1 destination content

/-! ## Registry lemmas -/

theorem lookupA_cons {α : Type} (e : String × α) (l : List (String × α))
    (q : String) :
    lookupA (e :: l) q = if e.1 == q then some e.2 else lookupA l q := by
  simp only [lookupA, List.find?]
  cases h : (e.1 == q) <;> simp [h]

theorem lookupA_cons_self {α : Type} (l : List (String × α)) (p : String)
    (a : α) : lookupA ((p, a) :: l) p = some a := by
  simp [lookupA_cons]

theorem lookupA_cons_ne {α : Type} (l : List (String × α)) (p q : String)
    (a : α) (h : q ≠ p) : lookupA ((p, a) :: l) q = lookupA l q := by
  simp [lookupA_cons, show (p == q) = false by simp [Ne.symm h]]

theorem lookupA_filter_self {α : Type} (l : List (String × α)) (p : String) :
    lookupA (l.filter (fun e => e.1 != p)) p = none := by
  induction l with
  | nil => rfl
  | cons e l ih =>
    by_cases he : e.1 = p
    · rw [List.filter_cons, if_neg (by simp [he])]
      exact ih
    · rw [List.filter_cons, if_pos (by simp [he]), lookupA_cons,
        show (e.1 == p) = false by simp [he]]
      simpa using ih

theorem lookupA_filter_ne {α : Type} (l : List (String × α)) (p q : String)
    (h : q ≠ p) : lookupA (l.filter (fun e => e.1 != p)) q = lookupA l q := by
  induction l with
  | nil => rfl
  | cons e l ih =>
    by_cases he : e.1 = p
    · rw [List.filter_cons, if_neg (by simp [he]), ih, lookupA_cons,
        show (e.1 == q) = false by simp [he, Ne.symm h]]
      simp
    · rw [List.filter_cons, if_pos (by simp [he]), lookupA_cons, lookupA_cons, ih]

/-! ## Characterization of the listing loop -/

/-- Everything one level-1 entry contributes to the listing: a directory
contributes its child-count entry followed by its level-2 expansion, a
file contributes its exact-size entry (its metadata must succeed for the
call to succeed at all). -/
def entryExpansion (v : Vfs) (e : DirEntry) : List FileInfo :=
  if e.file_type = FileType.Directory then
    mkDirInfo e.path (dirCount v e.path) :: expandDir v e.path
  else
    match vfsMetadata v e.path with
    | .ok m => [mkFileInfo e.path m.len]
    | .error _ => []

theorem processEntries_ok (v : Vfs) :
    ∀ (es : List DirEntry) (out : List FileInfo),
      processEntries v es = .ok out →
      out = (es.map (entryExpansion v)).flatten ∧
      ∀ e ∈ es, e.file_type ≠ FileType.Directory →
        ∃ m, vfsMetadata v e.path = .ok m := by
  intro es
  induction es with
  | nil =>
    intro out h
    simp only [processEntries] at h
    cases h
    simp
  | cons e rest ih =>
    intro out h
    simp only [processEntries] at h
    by_cases hd : e.file_type = FileType.Directory
    · rw [if_pos hd] at h
      cases hrest : processEntries v rest with
      | ok tail =>
        rw [hrest] at h
        cases h
        rcases ih tail hrest with ⟨htail, hmeta⟩
        constructor
        · simp [entryExpansion, hd, htail]
        · intro e' he' hf
          rcases List.mem_cons.mp he' with rfl | he2
          · exact absurd hd hf
          · exact hmeta e' he2 hf
      | error msg => rw [hrest] at h; cases h
    · rw [if_neg hd] at h
      cases hm : vfsMetadata v e.path with
      | ok m =>
        rw [hm] at h
        cases hrest : processEntries v rest with
        | ok tail =>
          rw [hrest] at h
          cases h
          rcases ih tail hrest with ⟨htail, hmeta⟩
          constructor
          · simp [entryExpansion, hd, hm, htail]
          · intro e' he' hf
            rcases List.mem_cons.mp he' with rfl | he2
            · exact ⟨m, hm⟩
            · exact hmeta e' he2 hf
        | error msg => rw [hrest] at h; cases h
      | error msg => rw [hm] at h; cases h

theorem processEntries_ok_of_meta (v : Vfs) :
    ∀ (es : List DirEntry),
      (∀ e ∈ es, e.file_type ≠ FileType.Directory →
        ∃ m, vfsMetadata v e.path = .ok m) →
      processEntries v es = .ok ((es.map (entryExpansion v)).flatten) := by
  intro es
  induction es with
  | nil => intro _; rfl
  | cons e rest ih =>
    intro hmeta
    have hrest := ih (fun e' he' => hmeta e' (List.mem_cons_of_mem e he'))
    by_cases hd : e.file_type = FileType.Directory
    · simp [processEntries, hd, hrest, entryExpansion]
    · rcases hmeta e (List.mem_cons_self e rest) hd with ⟨m, hm⟩
      simp [processEntries, hd, hrest, hm, entryExpansion]

theorem mem_expansion_flatten {v : Vfs} {es : List DirEntry} {fi : FileInfo}
    (h : fi ∈ (es.map (entryExpansion v)).flatten) :
    ∃ e ∈ es, fi ∈ entryExpansion v e := by
  rcases List.mem_flatten.mp h with ⟨l, hl, hfi⟩
  rcases List.mem_map.mp hl with ⟨e, he, rfl⟩
  exact ⟨e, he, hfi⟩

theorem subEntryInfo_some {v : Vfs} {se : DirEntry} {fi : FileInfo}
    (h : subEntryInfo v se = some fi) :
    fi.path = se.path ∧
    ((se.file_type = FileType.Directory ∧ fi = mkDirInfo se.path 0) ∨
     (se.file_type ≠ FileType.Directory ∧
       ∃ m, vfsMetadata v se.path = .ok m ∧ fi = mkFileInfo se.path m.len)) := by
  by_cases hd : se.file_type = FileType.Directory
  · simp only [subEntryInfo, if_pos hd] at h
    cases h
    exact ⟨rfl, Or.inl ⟨hd, rfl⟩⟩
  · simp only [subEntryInfo, if_neg hd] at h
    cases hm : vfsMetadata v se.path with
    | ok m =>
      rw [hm] at h
      cases h
      exact ⟨rfl, Or.inr ⟨hd, m, rfl, rfl⟩⟩
    | error msg => rw [hm] at h; cases h

@[simp] theorem mkDirInfo_path (p : String) (n : Nat) : (mkDirInfo p n).path = p := rfl

@[simp] theorem mkFileInfo_path (p : String) (n : Nat) : (mkFileInfo p n).path = p := rfl

/-- The shape every successful listing has: the level-1 entries of the
root, each level-1 directory present with its child count as size, and
every emitted entry originating either at level 1 (directory with child
count, file with exact metadata size) or at level 2 under a level-1
directory (directory with size 0, file with exact metadata size) — in
particular nothing deeper than two levels is emitted. -/
def ListingSpec (v : Vfs) (root : String) (out : List FileInfo) : Prop :=
  ∃ es, vfsReadDir v root = .ok es ∧
    (∀ e ∈ es, e.file_type = FileType.Directory →
       mkDirInfo e.path (dirCount v e.path) ∈ out ∧
       ∀ cs, vfsReadDir v e.path = .ok cs → dirCount v e.path = cs.length) ∧
    (∀ fi ∈ out,
      (∃ e ∈ es, fi.path = e.path ∧
        ((e.file_type = FileType.Directory ∧
           fi = mkDirInfo e.path (dirCount v e.path)) ∨
         (e.file_type ≠ FileType.Directory ∧
           ∃ m, vfsMetadata v e.path = .ok m ∧ fi = mkFileInfo e.path m.len))) ∨
      (∃ e ∈ es, e.file_type = FileType.Directory ∧
        ∃ ses, vfsReadDir v e.path = .ok ses ∧ ∃ se ∈ ses, fi.path = se.path ∧
          ((se.file_type = FileType.Directory ∧ fi = mkDirInfo se.path 0) ∨
           (se.file_type ≠ FileType.Directory ∧
             ∃ m, vfsMetadata v se.path = .ok m ∧ fi = mkFileInfo se.path m.len))))

/-- C1: for every root directory whose listing succeeds, the emitted
entries have depth-dependent sizes and a hard two-level bound: each
level-1 directory is emitted with size equal to its immediate child count,
each level-2 directory with size 0, each file with its exact metadata byte
size, and every entry originates at level 1 or level 2 below the root. -/
theorem c1_listing_depth_and_sizes (v : Vfs) (root : String)
    (out : List FileInfo) (h : list_directory_contents v root = .ok out) :
    ListingSpec v root out := by
  unfold list_directory_contents at h
  cases hroot : vfsReadDir v root with
  | error msg => rw [hroot] at h; cases h
  | ok es =>
    rw [hroot] at h
    rcases processEntries_ok v es out h with ⟨hout, _⟩
    refine ⟨es, hroot, ?_, ?_⟩
    · intro e he hd
      constructor
      · subst hout
        refine List.mem_flatten.mpr ⟨entryExpansion v e, List.mem_map_of_mem _ he, ?_⟩
        simp [entryExpansion, hd]
      · intro cs hcs
        simp [dirCount, hcs]
    · intro fi hfi
      subst hout
      rcases mem_expansion_flatten hfi with ⟨e, he, hmem⟩
      by_cases hd : e.file_type = FileType.Directory
      · simp only [entryExpansion, if_pos hd] at hmem
        rcases List.mem_cons.mp hmem with rfl | hsub
        · exact Or.inl ⟨e, he, rfl, Or.inl ⟨hd, rfl⟩⟩
        · simp only [expandDir] at hsub
          cases hses : vfsReadDir v e.path with
          | error msg => rw [hses] at hsub; cases hsub
          | ok ses =>
            rw [hses] at hsub
            rcases List.mem_filterMap.mp hsub with ⟨se, hse, hsome⟩
            rcases subEntryInfo_some hsome with ⟨hpath, hcases⟩
            exact Or.inr ⟨e, he, hd, ses, hses, se, hse, hpath, hcases⟩
      · simp only [entryExpansion, if_neg hd] at hmem
        cases hm : vfsMetadata v e.path with
        | ok m =>
          rw [hm] at hmem
          rcases List.mem_singleton.mp hmem with rfl
          exact Or.inl ⟨e, he, rfl, Or.inr ⟨hd, m, hm, rfl⟩⟩
        | error msg => rw [hm] at hmem; cases hmem

/-- A concrete store for exercising the listing claims: a root with one
subdirectory (containing a directory and a file) and one file. -/
def vWit : Vfs := {
  files := [],
  dirListings := [
    ("/r", [⟨"/r/d", FileType.Directory⟩, ⟨"/r/f.txt", FileType.File⟩]),
    ("/r/d", [⟨"/r/d/dd", FileType.Directory⟩, ⟨"/r/d/g.txt", FileType.File⟩])],
  fileMeta := [("/r/f.txt", ⟨10, 0, 0⟩), ("/r/d/g.txt", ⟨4, 0, 0⟩)],
  badDirs := [], badMeta := [], badCreate := [], badDelete := [] }

/-- The listing `vWit` produces for root "/r". -/
def outWit : List FileInfo :=
  [mkDirInfo "/r/d" 2, mkDirInfo "/r/d/dd" 0,
   mkFileInfo "/r/d/g.txt" 4, mkFileInfo "/r/f.txt" 10]

theorem c1_witness :
    list_directory_contents vWit "/r" = .ok outWit ∧ ListingSpec vWit "/r" outWit :=
  ⟨rfl, c1_listing_depth_and_sizes vWit "/r" outWit rfl⟩

/-- C5: an empty directory lists as an empty sequence; a store-read
failure on the root is fatal to the call; a store-read failure on a
level-1 subdirectory is non-fatal — that subdirectory is emitted with
child count 0 and every sibling is still processed. -/
theorem c5_listing_error_handling :
    (∀ (v : Vfs) (root : String), vfsReadDir v root = .ok [] →
       list_directory_contents v root = .ok []) ∧
    (∀ (v : Vfs) (root msg : String), vfsReadDir v root = .error msg →
       list_directory_contents v root =
         .error ("Failed to read directory '" ++ root ++ "': " ++ msg)) ∧
    (∀ (v : Vfs) (root : String) (es : List DirEntry) (e : DirEntry)
       (msg : String) (out : List FileInfo),
       vfsReadDir v root = .ok es → e ∈ es →
       e.file_type = FileType.Directory → vfsReadDir v e.path = .error msg →
       list_directory_contents v root = .ok out →
       mkDirInfo e.path 0 ∈ out ∧
       (∀ e' ∈ es, e'.file_type = FileType.Directory →
          mkDirInfo e'.path (dirCount v e'.path) ∈ out) ∧
       (∀ e' ∈ es, e'.file_type ≠ FileType.Directory →
          ∃ m, vfsMetadata v e'.path = .ok m ∧ mkFileInfo e'.path m.len ∈ out)) := by
  refine ⟨?_, ?_, ?_⟩
  · intro v root h
    unfold list_directory_contents
    rw [h]
    rfl
  · intro v root msg h
    unfold list_directory_contents
    rw [h]
  · intro v root es e msg out hroot he hd herr hout
    unfold list_directory_contents at hout
    rw [hroot] at hout
    rcases processEntries_ok v es out hout with ⟨rfl, hmeta⟩
    have hmem : ∀ e' ∈ es, e'.file_type = FileType.Directory →
        mkDirInfo e'.path (dirCount v e'.path) ∈
          (es.map (entryExpansion v)).flatten := by
      intro e' he' hd'
      refine List.mem_flatten.mpr
        ⟨entryExpansion v e', List.mem_map_of_mem _ he', ?_⟩
      simp [entryExpansion, hd']
    refine ⟨?_, hmem, ?_⟩
    · have hm0 := hmem e he hd
      rwa [show dirCount v e.path = 0 by simp [dirCount, herr]] at hm0
    · intro e' he' hf
      rcases hmeta e' he' hf with ⟨m, hm⟩
      refine ⟨m, hm, ?_⟩
      refine List.mem_flatten.mpr
        ⟨entryExpansion v e', List.mem_map_of_mem _ he', ?_⟩
      simp [entryExpansion, hf, hm]

/-- A store whose root lists as empty. -/
def vEmpty : Vfs := {
  files := [], dirListings := [("/e", [])], fileMeta := [],
  badDirs := [], badMeta := [], badCreate := [], badDelete := [] }

/-- A store whose root read times out. -/
def vRootBad : Vfs := {
  files := [], dirListings := [], fileMeta := [],
  badDirs := ["/r"], badMeta := [], badCreate := [], badDelete := [] }

/-- A store with one subdirectory whose read times out and one sibling
file with good metadata. -/
def vSubBad : Vfs := {
  files := [],
  dirListings := [("/r", [⟨"/r/d", FileType.Directory⟩, ⟨"/r/f", FileType.File⟩])],
  fileMeta := [("/r/f", ⟨7, 0, 0⟩)],
  badDirs := ["/r/d"], badMeta := [], badCreate := [], badDelete := [] }

theorem c5_witness :
    list_directory_contents vEmpty "/e" = .ok [] ∧
    list_directory_contents vRootBad "/r" =
      .error "Failed to read directory '/r': vfs timeout" ∧
    (mkDirInfo "/r/d" 0 ∈ [mkDirInfo "/r/d" 0, mkFileInfo "/r/f" 7] ∧
     (∀ e' ∈ [(⟨"/r/d", FileType.Directory⟩ : DirEntry), ⟨"/r/f", FileType.File⟩],
        e'.file_type = FileType.Directory →
        mkDirInfo e'.path (dirCount vSubBad e'.path) ∈
          [mkDirInfo "/r/d" 0, mkFileInfo "/r/f" 7]) ∧
     (∀ e' ∈ [(⟨"/r/d", FileType.Directory⟩ : DirEntry), ⟨"/r/f", FileType.File⟩],
        e'.file_type ≠ FileType.Directory →
        ∃ m, vfsMetadata vSubBad e'.path = .ok m ∧
          mkFileInfo e'.path m.len ∈ [mkDirInfo "/r/d" 0, mkFileInfo "/r/f" 7])) :=
  ⟨c5_listing_error_handling.1 vEmpty "/e" rfl,
   c5_listing_error_handling.2.1 vRootBad "/r" "vfs timeout" rfl,
   c5_listing_error_handling.2.2 vSubBad "/r"
     [⟨"/r/d", FileType.Directory⟩, ⟨"/r/f", FileType.File⟩]
     ⟨"/r/d", FileType.Directory⟩ "vfs timeout"
     [mkDirInfo "/r/d" 0, mkFileInfo "/r/f" 7]
     rfl (by decide) rfl rfl rfl⟩

theorem mem_listing_cases {v : Vfs} {es : List DirEntry} {fi : FileInfo}
    (hmem : fi ∈ (es.map (entryExpansion v)).flatten) :
    ∃ e ∈ es,
      (e.file_type = FileType.Directory ∧
        (fi = mkDirInfo e.path (dirCount v e.path) ∨
         ∃ ses, vfsReadDir v e.path = .ok ses ∧
           ∃ se ∈ ses, subEntryInfo v se = some fi)) ∨
      (e.file_type ≠ FileType.Directory ∧
        ∃ m, vfsMetadata v e.path = .ok m ∧ fi = mkFileInfo e.path m.len) := by
  rcases mem_expansion_flatten hmem with ⟨e, he, hin⟩
  refine ⟨e, he, ?_⟩
  by_cases hd : e.file_type = FileType.Directory
  · simp only [entryExpansion, if_pos hd] at hin
    rcases List.mem_cons.mp hin with rfl | hsub
    · exact Or.inl ⟨hd, Or.inl rfl⟩
    · simp only [expandDir] at hsub
      cases hses : vfsReadDir v e.path with
      | error msg => rw [hses] at hsub; cases hsub
      | ok ses =>
        rw [hses] at hsub
        rcases List.mem_filterMap.mp hsub with ⟨se, hse, hsome⟩
        exact Or.inl ⟨hd, Or.inr ⟨ses, rfl, se, hse, hsome⟩⟩
  · simp only [entryExpansion, if_neg hd] at hin
    cases hm : vfsMetadata v e.path with
    | ok m =>
      rw [hm] at hin
      rcases List.mem_singleton.mp hin with rfl
      exact Or.inr ⟨hd, m, rfl, rfl⟩
    | error msg => rw [hm] at hin; cases hin

/-- C9: metadata-fetch failure is handled asymmetrically by depth: a
failing metadata call for a level-1 file makes the whole listing fail; the
listing succeeds whenever every level-1 file's metadata succeeds
(regardless of level-2 failures); and a level-2 file whose metadata call
fails is silently omitted from the successful result. -/
theorem c9_metadata_failure_asymmetry :
    (∀ (v : Vfs) (root : String) (es : List DirEntry) (e : DirEntry)
       (msg : String),
       vfsReadDir v root = .ok es → e ∈ es →
       e.file_type ≠ FileType.Directory → vfsMetadata v e.path = .error msg →
       ∃ err, list_directory_contents v root = .error err) ∧
    (∀ (v : Vfs) (root : String) (es : List DirEntry),
       vfsReadDir v root = .ok es →
       (∀ e ∈ es, e.file_type ≠ FileType.Directory →
          ∃ m, vfsMetadata v e.path = .ok m) →
       ∃ out, list_directory_contents v root = .ok out) ∧
    (∀ (v : Vfs) (root : String) (es : List DirEntry) (out : List FileInfo)
       (d se : DirEntry) (ses : List DirEntry) (msg : String),
       vfsReadDir v root = .ok es →
       list_directory_contents v root = .ok out →
       d ∈ es → d.file_type = FileType.Directory →
       vfsReadDir v d.path = .ok ses → se ∈ ses →
       se.file_type ≠ FileType.Directory → vfsMetadata v se.path = .error msg →
       (∀ e ∈ es, e.path ≠ se.path) →
       (∀ e ∈ es, e.file_type = FileType.Directory →
          ∀ ses', vfsReadDir v e.path = .ok ses' →
            ∀ se' ∈ ses', se'.path = se.path →
              se'.file_type ≠ FileType.Directory) →
       ∀ fi ∈ out, fi.path ≠ se.path) := by
  refine ⟨?_, ?_, ?_⟩
  · intro v root es e msg hroot he hf herr
    have heq : list_directory_contents v root = processEntries v es := by
      unfold list_directory_contents
      rw [hroot]
    rw [heq]
    cases hp : processEntries v es with
    | ok out =>
      rcases processEntries_ok v es out hp with ⟨_, hmeta⟩
      rcases hmeta e he hf with ⟨m, hm⟩
      rw [herr] at hm
      cases hm
    | error err => exact ⟨err, rfl⟩
  · intro v root es hroot hmeta
    have heq : list_directory_contents v root = processEntries v es := by
      unfold list_directory_contents
      rw [hroot]
    exact ⟨_, heq.trans (processEntries_ok_of_meta v es hmeta)⟩
  · intro v root es out d se ses msg hroot hout hd hdir hses hse hsef herr
      hlvl1 hlvl2 fi hfi
    have heq : list_directory_contents v root = processEntries v es := by
      unfold list_directory_contents
      rw [hroot]
    rw [heq] at hout
    rcases processEntries_ok v es out hout with ⟨rfl, _⟩
    rcases mem_listing_cases hfi with ⟨e, he, hcase⟩
    rcases hcase with ⟨hedir, hform⟩ | ⟨_, m, _, rfl⟩
    · rcases hform with rfl | ⟨ses', hses', se', hse', hsome⟩
      · simpa using hlvl1 e he
      · rcases subEntryInfo_some hsome with ⟨hpath, hcases⟩
        rw [hpath]
        intro hps
        have hnd := hlvl2 e he hedir ses' hses' se' hse' hps
        rcases hcases with ⟨hdse, _⟩ | ⟨_, m, hm, _⟩
        · exact hnd hdse
        · rw [hps, herr] at hm
          cases hm
    · simpa using hlvl1 e he

/-- A store where a level-1 file's metadata call times out. -/
def vMetaBad : Vfs := {
  files := [], dirListings := [("/r", [⟨"/r/f", FileType.File⟩])],
  fileMeta := [], badDirs := [], badMeta := ["/r/f"],
  badCreate := [], badDelete := [] }

/-- A store where a level-2 file's metadata call times out while every
level-1 file's metadata succeeds. -/
def vSub2 : Vfs := {
  files := [],
  dirListings := [("/r", [⟨"/r/d", FileType.Directory⟩, ⟨"/r/f", FileType.File⟩]),
                  ("/r/d", [⟨"/r/d/g", FileType.File⟩])],
  fileMeta := [("/r/f", ⟨7, 0, 0⟩)],
  badDirs := [], badMeta := ["/r/d/g"], badCreate := [], badDelete := [] }

theorem c9_witness :
    (∃ err, list_directory_contents vMetaBad "/r" = .error err) ∧
    (∃ out, list_directory_contents vWit "/r" = .ok out) ∧
    (∀ fi ∈ [mkDirInfo "/r/d" 1, mkFileInfo "/r/f" 7], fi.path ≠ "/r/d/g") :=
  ⟨c9_metadata_failure_asymmetry.1 vMetaBad "/r" [⟨"/r/f", FileType.File⟩]
     ⟨"/r/f", FileType.File⟩ "vfs timeout" rfl (by decide) (by decide) rfl,
   c9_metadata_failure_asymmetry.2.1 vWit "/r"
     [⟨"/r/d", FileType.Directory⟩, ⟨"/r/f.txt", FileType.File⟩] rfl
     (by
       intro e he hf
       rcases List.mem_cons.mp he with rfl | he2
       · exact absurd rfl hf
       rcases List.mem_cons.mp he2 with rfl | he3
       · exact ⟨⟨10, 0, 0⟩, rfl⟩
       · cases he3),
   c9_metadata_failure_asymmetry.2.2 vSub2 "/r"
     [⟨"/r/d", FileType.Directory⟩, ⟨"/r/f", FileType.File⟩]
     [mkDirInfo "/r/d" 1, mkFileInfo "/r/f" 7]
     ⟨"/r/d", FileType.Directory⟩ ⟨"/r/d/g", FileType.File⟩
     [⟨"/r/d/g", FileType.File⟩] "vfs timeout"
     rfl rfl (by decide) rfl rfl (by decide) (by decide) rfl (by decide)
     (by
       intro e he hdir ses' hses' se' hse' hps
       rcases List.mem_cons.mp he with rfl | he2
       · have : ses' = [⟨"/r/d/g", FileType.File⟩] := by
           have h2 : (Except.ok [(⟨"/r/d/g", FileType.File⟩ : DirEntry)] :
               Except String (List DirEntry)) = .ok ses' := hses'
           cases h2
           rfl
         subst this
         rcases List.mem_singleton.mp hse' with rfl
         decide
       rcases List.mem_cons.mp he2 with rfl | he3
       · cases hdir
       · cases he3)⟩

/-- A store whose one file has nonzero created/modified timestamps in its
metadata. -/
def vTimeStamps : Vfs := {
  files := [], dirListings := [("/r", [⟨"/r/a.txt", FileType.File⟩])],
  fileMeta := [("/r/a.txt", ⟨3, 5, 7⟩)],
  badDirs := [], badMeta := [], badCreate := [], badDelete := [] }

/-- C8 counterexample: the store metadata for "/r/a.txt" carries
created = 5 and modified = 7, yet the emitted entry has created = 0 and
modified = 0 — the listing does not propagate store timestamps. -/
theorem c8_counterexample :
    list_directory_contents vTimeStamps "/r" = .ok [mkFileInfo "/r/a.txt" 3] ∧
    vfsMetadata vTimeStamps "/r/a.txt" = .ok ⟨3, 5, 7⟩ ∧
    (mkFileInfo "/r/a.txt" 3).created = 0 ∧
    (mkFileInfo "/r/a.txt" 3).modified = 0 ∧
    ¬((mkFileInfo "/r/a.txt" 3).created = 5 ∧
      (mkFileInfo "/r/a.txt" 3).modified = 7) :=
  ⟨rfl, rfl, rfl, rfl, by decide⟩

/-- C8 amended: every entry of a successful listing carries the exact
byte size from store metadata when it is a file, but its created and
modified fields are always the fixed constant 0, not store timestamps. -/
theorem c8_amended_zero_timestamps (v : Vfs) (root : String)
    (out : List FileInfo) (h : list_directory_contents v root = .ok out) :
    ∀ fi ∈ out, fi.created = 0 ∧ fi.modified = 0 ∧
      (fi.is_directory = false →
        ∃ m, vfsMetadata v fi.path = .ok m ∧ fi.size = m.len) := by
  unfold list_directory_contents at h
  cases hroot : vfsReadDir v root with
  | error msg => rw [hroot] at h; cases h
  | ok es =>
    rw [hroot] at h
    rcases processEntries_ok v es out h with ⟨rfl, _⟩
    intro fi hfi
    rcases mem_listing_cases hfi with ⟨e, he, hcase⟩
    rcases hcase with ⟨hedir, hform⟩ | ⟨_, m, hm, rfl⟩
    · rcases hform with rfl | ⟨ses', hses', se', hse', hsome⟩
      · refine ⟨rfl, rfl, ?_⟩
        intro hd
        simp [mkDirInfo] at hd
      · rcases subEntryInfo_some hsome with ⟨hpath, hcases⟩
        rcases hcases with ⟨_, rfl⟩ | ⟨_, m, hm, rfl⟩
        · refine ⟨rfl, rfl, ?_⟩
          intro hd
          simp [mkDirInfo] at hd
        · exact ⟨rfl, rfl, fun _ => ⟨m, by simpa using hm, rfl⟩⟩
    · exact ⟨rfl, rfl, fun _ => ⟨m, by simpa using hm, rfl⟩⟩

theorem c8_witness :
    (mkFileInfo "/r/a.txt" 3).created = 0 ∧
    (mkFileInfo "/r/a.txt" 3).modified = 0 ∧
    ∃ m, vfsMetadata vTimeStamps "/r/a.txt" = .ok m ∧
      (mkFileInfo "/r/a.txt" 3).size = m.len :=
  ⟨(c8_amended_zero_timestamps vTimeStamps "/r" [mkFileInfo "/r/a.txt" 3] rfl
      (mkFileInfo "/r/a.txt" 3) (List.mem_singleton.mpr rfl)).1,
   (c8_amended_zero_timestamps vTimeStamps "/r" [mkFileInfo "/r/a.txt" 3] rfl
      (mkFileInfo "/r/a.txt" 3) (List.mem_singleton.mpr rfl)).2.1,
   (c8_amended_zero_timestamps vTimeStamps "/r" [mkFileInfo "/r/a.txt" 3] rfl
      (mkFileInfo "/r/a.txt" 3) (List.mem_singleton.mpr rfl)).2.2 rfl⟩

/-- C3: the share link is the same for any two policies and any two
registry states — the id is the hex MD5 of the UTF-8 bytes of the path
alone — and re-sharing a path replaces its stored policy while the link
is unchanged. -/
theorem c3_share_link_deterministic (s1 s2 s : FileExplorerState)
    (v1 v2 v : Vfs) (p : String) (a b : AuthScheme) :
    (share_file s1 v1 p a).2.2 = (share_file s2 v2 p b).2.2 ∧
    (share_file s v p a).2.2 =
      .ok ("/" ++ PROCESS_ID_LINK ++ "/shared/" ++
        hexOfBytes (md5Bytes (utf8Bytes p))) ∧
    (share_file (share_file s v p a).1 v p b).2.2 = (share_file s v p a).2.2 ∧
    lookupA (share_file (share_file s v p a).1 v p b).1.shared_files p =
      some b := by
  refine ⟨rfl, rfl, rfl, ?_⟩
  simp only [share_file]
  exact lookupA_cons_self _ p b

/-- C6: after sharing a path, `get_share_link` answers the id-embedding
link; `get_share_link` answers none exactly when the path has no registry
entry; `unshare_file` removes the entry, answers true exactly when an
entry was present, and afterwards `get_share_link` answers none. -/
theorem c6_lookup_and_unshare (s : FileExplorerState) (v : Vfs) (p : String)
    (auth : AuthScheme) :
    (get_share_link (share_file s v p auth).1 v p).2.2 =
      .ok (some ("/" ++ PROCESS_ID_LINK ++ "/shared/" ++ md5Hex p)) ∧
    ((get_share_link s v p).2.2 = .ok none ↔ lookupA s.shared_files p = none) ∧
    lookupA (unshare_file s v p).1.shared_files p = none ∧
    ((unshare_file s v p).2.2 = .ok true ↔
      (lookupA s.shared_files p).isSome = true) ∧
    (get_share_link (unshare_file s v p).1 v p).2.2 = .ok none := by
  refine ⟨?_, ?_, ?_, ?_, ?_⟩
  · simp only [get_share_link, share_file, shareLink]
    rw [lookupA_cons_self]
    rfl
  · cases h : lookupA s.shared_files p <;> simp [get_share_link, h]
  · simp only [unshare_file]
    exact lookupA_filter_self _ p
  · simp [unshare_file]
  · simp [get_share_link, unshare_file, lookupA_filter_self]

/-- The first match of the resolution scan is an element of the registry
holding its registered policy: with unique keys, the policy found is the
policy stored for that path. -/
theorem lookupA_nodup_mem {α : Type} :
    ∀ (l : List (String × α)), (l.map Prod.fst).Nodup →
      ∀ (p : String) (a b : α), (p, a) ∈ l → lookupA l p = some b → a = b := by
  intro l
  induction l with
  | nil => intro _ p a b hmem; cases hmem
  | cons e rest ih =>
    intro hnd p a b hmem hl
    rcases List.mem_cons.mp hmem with rfl | hmem2
    · rw [lookupA_cons_self] at hl
      cases hl
      rfl
    · have hne : e.1 ≠ p := by
        intro hep
        have hpm : p ∈ rest.map Prod.fst :=
          List.mem_map.mpr ⟨(p, a), hmem2, rfl⟩
        rw [List.map_cons] at hnd
        exact (List.nodup_cons.mp hnd).1 (hep ▸ hpm)
      rw [lookupA_cons, show (e.1 == p) = false by simp [hne]] at hl
      simp only [Bool.false_eq_true, if_false] at hl
      exact ih (by rw [List.map_cons] at hnd; exact (List.nodup_cons.mp hnd).2)
        p a b hmem2 hl

/-- When the resolution scan's first id match is a Private entry, the
serve loop answers the access-denied error and sets no headers. -/
theorem serveLoop_private (s : FileExplorerState) (v : Vfs) (id p : String) :
    ∀ (reg : List (String × AuthScheme)),
      resolveShare reg id = some (p, AuthScheme.Private) →
      serveLoop s v id reg = (.error "Access denied: Private file", []) := by
  intro reg
  induction reg with
  | nil => intro h; cases h
  | cons e rest ih =>
    intro h
    simp only [resolveShare, List.find?] at h
    cases hm : (md5Hex e.1 == id) with
    | true =>
      rw [hm] at h
      cases h
      simp [serveLoop, hm]
    | false =>
      rw [hm] at h
      have hr := ih (by simpa [resolveShare] using h)
      cases e with
      | mk path auth =>
        simp only [serveLoop]
        rw [show (md5Hex path == id) = false from hm]
        simpa using hr

/-- C2: whenever the request path carries the `/shared/` form, its
extracted id resolves (first match of the scan) to a path registered with
policy Private, the gateway answers the access-denied error — no
execution serves the bytes of a Private share. -/
theorem c2_private_never_served (s : FileExplorerState) (v : Vfs)
    (rp share_id p : String) (auth : AuthScheme)
    (hnd : (s.shared_files.map Prod.fst).Nodup)
    (hstrip : stripShared rp = some share_id)
    (hres : resolveShare s.shared_files share_id = some (p, auth))
    (hpol : lookupA s.shared_files p = some AuthScheme.Private) :
    serve_shared_file s v (some rp) =
      (s, v, .error "Access denied: Private file", []) := by
  have hauth : auth = AuthScheme.Private :=
    lookupA_nodup_mem s.shared_files hnd p auth AuthScheme.Private
      (List.mem_of_find?_eq_some hres) hpol
  subst hauth
  have hs : serve_shared_file s v (some rp) =
      (s, v, serveLoop s v share_id s.shared_files) := by
    simp [serve_shared_file, hstrip]
  rw [hs, serveLoop_private s v share_id p s.shared_files hres]

/-- A registry holding a single Private share. -/
def sPriv : FileExplorerState :=
  ⟨[("/docs/secret.txt", AuthScheme.Private)], "/"⟩

theorem c2_witness :
    serve_shared_file sPriv vEmpty
      (some ("/shared/" ++ md5Hex "/docs/secret.txt")) =
      (sPriv, vEmpty, .error "Access denied: Private file", []) :=
  c2_private_never_served sPriv vEmpty
    ("/shared/" ++ md5Hex "/docs/secret.txt") (md5Hex "/docs/secret.txt")
    "/docs/secret.txt" AuthScheme.Private (by decide) rfl rfl rfl

/-- C10: neither `serve_shared_file` nor `get_share_link` (nor any file
operation) modifies the application state; the registry is changed only by
`share_file` (upsert) and `unshare_file` (removal), and the current
directory only by `set_current_directory` and `init`. -/
theorem c10_state_frame (s : FileExplorerState) (v : Vfs) (p q fn : String)
    (c : List Nat) (a : AuthScheme) (rp : Option String)
    (home : Except String String) :
    (serve_shared_file s v rp).1 = s ∧
    (get_share_link s v p).1 = s ∧
    (list_directory s v p).1 = s ∧
    (create_file s v p c).1 = s ∧
    (read_file s v p).1 = s ∧
    (update_file s v p c).1 = s ∧
    (delete_file s v p).1 = s ∧
    (create_directory s v p).1 = s ∧
    (delete_directory s v p).1 = s ∧
    (upload_file s v p fn c).1 = s ∧
    (move_file s v p q).1 = s ∧
    (copy_file s v p q).1 = s ∧
    (get_current_directory s v).1 = s ∧
    (share_file s v p a).1.cwd = s.cwd ∧
    (unshare_file s v p).1.cwd = s.cwd ∧
    (set_current_directory s v p).1.shared_files = s.shared_files ∧
    (init s v home).1.shared_files = s.shared_files ∧
    (share_file s v p a).1.shared_files =
      (p, a) :: s.shared_files.filter (fun e => e.1 != p) ∧
    (unshare_file s v p).1.shared_files =
      s.shared_files.filter (fun e => e.1 != p) ∧
    (set_current_directory s v p).1.cwd = p := by
  refine ⟨?_, rfl, rfl, ?_, ?_, ?_, ?_, rfl, rfl, ?_, ?_, ?_, rfl, rfl, rfl,
    rfl, ?_, rfl, rfl, rfl⟩
  · cases rp with
    | none => rfl
    | some r => cases h : stripShared r <;> simp [serve_shared_file, h]
  · cases h : vfsCreateWrite v p c <;> simp [create_file, h]
  · cases h : vfsOpenRead v p <;> simp [read_file, h]
  · cases h : vfsOpenRead v p <;> simp [update_file, h]
  · cases h : vfsRemoveFile v p <;> simp [delete_file, h]
  · cases h : vfsCreateWrite v (p ++ "/" ++ fn) c <;>
      simp [upload_file, create_file, h]
  · unfold move_file
    cases h1 : vfsOpenRead v p with
    | error e => simp [read_file, h1]
    | ok c1 =>
      simp only [read_file, h1]
      cases h2 : vfsCreateWrite v q c1 with
      | error e => simp [create_file, h2]
      | ok v2 =>
        simp only [create_file, h2]
        cases h3 : vfsRemoveFile v2 p with
        | error e => simp [delete_file, h3]
        | ok v3 => simp [delete_file, h3]
  · unfold copy_file
    cases h1 : vfsOpenRead v p with
    | error e => simp [read_file, h1]
    | ok c1 =>
      simp only [read_file, h1]
      cases h2 : vfsCreateWrite v q c1 <;> simp [create_file, h2]
  · cases home <;> rfl

theorem vfsOpenRead_ok {v : Vfs} {p : String} {c : List Nat}
    (h : vfsOpenRead v p = .ok c) : lookupA v.files p = some c := by
  unfold vfsOpenRead at h
  cases hl : lookupA v.files p with
  | some c2 => rw [hl] at h; cases h; rfl
  | none => rw [hl] at h; cases h

/-- C7: a successful copy leaves the destination holding the source's
original content and the source still readable with unchanged content —
no deletion happens. -/
theorem c7_copy_preserves_source (s : FileExplorerState) (v : Vfs)
    (src dst : String) (c : List Nat)
    (hsrc : vfsOpenRead v src = .ok c)
    (s2 : FileExplorerState) (v2 : Vfs) (fi : FileInfo)
    (h : copy_file s v src dst = (s2, v2, .ok fi)) :
    (read_file s2 v2 dst).2.2 = .ok c ∧ (read_file s2 v2 src).2.2 = .ok c := by
  have hread : read_file s v src = (s, v, .ok c) := by
    simp [read_file, hsrc]
  have hcopy : copy_file s v src dst = create_file s v dst c := by
    unfold copy_file
    rw [hread]
  rw [hcopy] at h
  unfold create_file at h
  cases h2 : vfsCreateWrite v dst c with
  | error e => rw [h2] at h; simp at h
  | ok v1 =>
    rw [h2] at h
    simp only [Prod.mk.injEq] at h
    rcases h with ⟨rfl, rfl, _⟩
    unfold vfsCreateWrite at h2
    by_cases hbc : v.badCreate.contains dst
    · rw [if_pos hbc] at h2; cases h2
    · rw [if_neg hbc] at h2
      cases h2
      constructor
      · simp [read_file, vfsOpenRead, lookupA_cons_self]
      · by_cases hsd : src = dst
        · subst hsd
          simp [read_file, vfsOpenRead, lookupA_cons_self]
        · simp only [read_file, vfsOpenRead]
          rw [show lookupA (((dst, c) :: List.filter (fun q => q.1 != dst)
              v.files)) src = some c by
            rw [lookupA_cons_ne _ _ _ _ hsd, lookupA_filter_ne _ _ _ hsd]
            exact vfsOpenRead_ok hsrc]

/-- The empty application state. -/
def sEmpty : FileExplorerState := ⟨[], "/"⟩

/-- A store holding one file "/a" with content [1, 2]. -/
def vFiles : Vfs := {
  files := [("/a", [1, 2])], dirListings := [], fileMeta := [],
  badDirs := [], badMeta := [], badCreate := [], badDelete := [] }

/-- The store after copying "/a" to "/b" in `vFiles`. -/
def vCopied : Vfs := { vFiles with files := [("/b", [1, 2]), ("/a", [1, 2])] }

theorem c7_witness :
    (read_file sEmpty vCopied "/b").2.2 = .ok [1, 2] ∧
    (read_file sEmpty vCopied "/a").2.2 = .ok [1, 2] :=
  c7_copy_preserves_source sEmpty vFiles "/a" "/b" [1, 2] rfl
    sEmpty vCopied (mkFileInfo "/b" 2) rfl

theorem move_file_eq (s : FileExplorerState) (v : Vfs) (src dst : String)
    (c : List Nat) (h : read_file s v src = (s, v, .ok c)) :
    move_file s v src dst =
      (match create_file s v dst c with
       | (s1, v1, .error e) => (s1, v1, .error e)
       | (s1, v1, .ok fi) =>
         match delete_file s1 v1 src with
         | (s3, v3, .error e) => (s3, v3, .error e)
         | (s3, v3, .ok _) => (s3, v3, .ok fi)) := by
  unfold move_file
  rw [h]

/-- C4 counterexample: moving "/a" onto itself succeeds, yet afterwards
the file is gone — `read(dst)` does not return the original content, so
the claim fails when `src = dst`. -/
theorem c4_counterexample :
    (move_file sEmpty vFiles "/a" "/a").2.2 = .ok (mkFileInfo "/a" 2) ∧
    (read_file (move_file sEmpty vFiles "/a" "/a").1
       (move_file sEmpty vFiles "/a" "/a").2.1 "/a").2.2 =
      .error "Failed to open file: no such file" :=
  ⟨rfl, rfl⟩

/-- The store after the create+write step of a move/copy of content `c`
to `dst`. -/
def midStore (v : Vfs) (dst : String) (c : List Nat) : Vfs :=
  { v with files := (dst, c) :: v.files.filter (fun q => q.1 != dst) }

/-- The store after the delete step of a move from `src` following the
committed copy to `dst`. -/
def endStore (v : Vfs) (src dst : String) (c : List Nat) : Vfs :=
  { midStore v dst c with
    files := (midStore v dst c).files.filter (fun q => q.1 != src) }

theorem vfsCreateWrite_ok {v : Vfs} {dst : String} {c : List Nat}
    (hbc : v.badCreate.contains dst = false) :
    vfsCreateWrite v dst c = .ok (midStore v dst c) := by
  unfold vfsCreateWrite midStore
  rw [hbc]
  rfl

theorem vfsRemoveFile_mid_bad {v : Vfs} {src dst : String} {c : List Nat}
    (hbd : v.badDelete.contains src = true) :
    vfsRemoveFile (midStore v dst c) src = .error "vfs timeout" := by
  unfold vfsRemoveFile
  rw [show (midStore v dst c).badDelete = v.badDelete from rfl, hbd]
  rfl

theorem vfsRemoveFile_mid_ok {v : Vfs} {src dst : String} {c : List Nat}
    (hbd : v.badDelete.contains src = false) (hne : src ≠ dst)
    (hlsrc : lookupA v.files src = some c) :
    vfsRemoveFile (midStore v dst c) src = .ok (endStore v src dst c) := by
  unfold vfsRemoveFile
  rw [show (midStore v dst c).badDelete = v.badDelete from rfl, hbd]
  rw [show (midStore v dst c).files =
      (dst, c) :: v.files.filter (fun q => q.1 != dst) from rfl]
  rw [lookupA_cons_ne _ _ _ _ hne, lookupA_filter_ne _ _ _ hne, hlsrc]
  rfl

/-- C4 amended: for distinct `src` and `dst`, a successful move leaves the
destination with the original content and the source absent; when the
delete step fails after the create step succeeded, the call reports an
error while the file exists at both paths with identical content. -/
theorem c4_amended_move (s : FileExplorerState) (v : Vfs) (src dst : String)
    (c : List Nat) (hne : src ≠ dst) (hsrc : vfsOpenRead v src = .ok c) :
    (∀ (s2 : FileExplorerState) (v2 : Vfs) (fi : FileInfo),
       move_file s v src dst = (s2, v2, .ok fi) →
       (read_file s2 v2 dst).2.2 = .ok c ∧
       (read_file s2 v2 src).2.2 =
         .error "Failed to open file: no such file") ∧
    (v.badDelete.contains src = true → v.badCreate.contains dst = false →
       ∃ v2, move_file s v src dst =
           (s, v2, .error "Failed to delete file: vfs timeout") ∧
         (read_file s v2 src).2.2 = .ok c ∧
         (read_file s v2 dst).2.2 = .ok c) := by
  have hread : read_file s v src = (s, v, .ok c) := by
    simp [read_file, hsrc]
  have hlsrc : lookupA v.files src = some c := vfsOpenRead_ok hsrc
  constructor
  · intro s2 v2 fi h
    rw [move_file_eq s v src dst c hread] at h
    cases hbc : v.badCreate.contains dst with
    | true =>
      have hcw : vfsCreateWrite v dst c = .error "vfs timeout" := by
        unfold vfsCreateWrite
        rw [hbc]
        rfl
      simp only [create_file, hcw] at h
      simp at h
    | false =>
      simp only [create_file, vfsCreateWrite_ok hbc] at h
      cases hbd : v.badDelete.contains src with
      | true =>
        simp only [delete_file, vfsRemoveFile_mid_bad hbd] at h
        simp at h
      | false =>
        simp only [delete_file, vfsRemoveFile_mid_ok hbd hne hlsrc] at h
        simp only [Prod.mk.injEq] at h
        rcases h with ⟨rfl, rfl, _⟩
        constructor
        · simp only [read_file, vfsOpenRead]
          rw [show (endStore v src dst c).files =
              ((dst, c) :: v.files.filter (fun q => q.1 != dst)).filter
                (fun q => q.1 != src) from rfl]
          rw [List.filter_cons_of_pos (by simp [Ne.symm hne]), lookupA_cons_self]
        · simp only [read_file, vfsOpenRead]
          rw [show (endStore v src dst c).files =
              ((dst, c) :: v.files.filter (fun q => q.1 != dst)).filter
                (fun q => q.1 != src) from rfl]
          rw [lookupA_filter_self]
          rfl
  · intro hbd hbc
    refine ⟨midStore v dst c, ?_, ?_, ?_⟩
    · rw [move_file_eq s v src dst c hread]
      simp only [create_file, vfsCreateWrite_ok hbc, delete_file,
        vfsRemoveFile_mid_bad hbd]
      rfl
    · simp only [read_file, vfsOpenRead]
      rw [show (midStore v dst c).files =
          (dst, c) :: v.files.filter (fun q => q.1 != dst) from rfl]
      rw [lookupA_cons_ne _ _ _ _ hne, lookupA_filter_ne _ _ _ hne, hlsrc]
    · simp only [read_file, vfsOpenRead]
      rw [show (midStore v dst c).files =
          (dst, c) :: v.files.filter (fun q => q.1 != dst) from rfl]
      rw [lookupA_cons_self]

/-- The store after a successful move of "/a" to "/b" in `vFiles`. -/
def vMoved : Vfs := { vFiles with files := [("/b", [1, 2])] }

/-- Store `vFiles` with the delete of "/a" set to time out. -/
def vBadDel : Vfs := { vFiles with badDelete := ["/a"] }

theorem c4_witness :
    ((read_file sEmpty vMoved "/b").2.2 = .ok [1, 2] ∧
     (read_file sEmpty vMoved "/a").2.2 =
       .error "Failed to open file: no such file") ∧
    (∃ v2, move_file sEmpty vBadDel "/a" "/b" =
        (sEmpty, v2, .error "Failed to delete file: vfs timeout") ∧
      (read_file sEmpty v2 "/a").2.2 = .ok [1, 2] ∧
      (read_file sEmpty v2 "/b").2.2 = .ok [1, 2]) :=
  ⟨(c4_amended_move sEmpty vFiles "/a" "/b" [1, 2] (by decide) rfl).1
     sEmpty vMoved (mkFileInfo "/b" 2) rfl,
   (c4_amended_move sEmpty vBadDel "/a" "/b" [1, 2] (by decide) rfl).2
     rfl rfl⟩
